import Mathlib

/-!
Shallow embedding of `src/cv_net/resnet.py` (a configurable ResNet builder
for image classification) and proofs about its construction algorithm.

Modelling conventions:
  - Each `torch.nn` module used by the source is mirrored by a `Layer`
    constructor carrying its configuration.  Parameter-initialization state
    is carried explicitly: a convolution records its weight-initializer
    (`WInit`), a batch-norm records its affine parameters as `Option Int`
    (`none` = the runtime default, untouched by the repository's code).
  - An activation constructor is identified by its registry name (the
    source passes class constructors around; their observable identity
    here is the name used to resolve them).
  - Python failures are modelled with `Except PyErr`: a failed bare
    `assert` is `assertionError`, an out-of-range list subscript is
    `indexError`.  The spec's typed configuration errors appear as their
    own constructors so that claims about them can be stated.
  - The randomness consumed by `nn.init.kaiming_normal_` is modelled by an
    explicit stream `s : Nat → Int`, sampled at a running counter.
-/

namespace CvNet

/-- Weight-initialization state of a convolution weight tensor. -/
inductive WInit where
  | default
  | kaimingNormal (mode : String) (nonlinearity : String) (sample : Int)
deriving Repr, DecidableEq

/-- Configuration of an `nn.Conv2d` layer (bias flag included). -/
structure Conv2dCfg where
  c_in : Nat
  c_out : Nat
  kernel_size : Nat
  padding : Nat
  stride : Nat
  bias : Bool
  winit : WInit
deriving Repr, DecidableEq

/-- The primitive layers used by `resnet.py`.  A `batchNorm2d` carries its
scale (weight) and shift (bias) parameter state. -/
inductive Layer where
  | conv2d (cfg : Conv2dCfg)
  | batchNorm2d (c : Nat) (weight : Option Int) (bias : Option Int)
  | act (name : String)
  | adaptiveAvgPool2d (h w : Nat)
  | flatten
  | linear (in_features out_features : Nat)
deriving Repr, DecidableEq

/-- Freshly constructed `nn.Conv2d(c_in, c_out, kernel_size=k, padding=p, stride=s, bias=b)`. -/
def nnConv2d (c_in c_out k p s : Nat) (b : Bool) : Layer :=
  .conv2d ⟨c_in, c_out, k, p, s, b, .default⟩

/-- Freshly constructed `nn.BatchNorm2d(c)`: affine parameters at the runtime default. -/
def nnBatchNorm2d (c : Nat) : Layer :=
  .batchNorm2d c none none

/-- A residual block instance: either a `ResNetBlock` (post-activation) or a
`PreActResNetBlock`.  Fields mirror the submodules registered in the source
constructors: `net` is the transform `Sequential`; `down_sample` is the
optional shortcut projection (a bare conv for the standard variant, a
`Sequential` for the pre-activation variant); the standard variant also
registers a trailing activation `act_fn`. -/
inductive Block where
  | standard (net : List Layer) (down_sample : Option Layer) (act_fn : Layer)
  | preact (net : List Layer) (down_sample : Option (List Layer))
deriving Repr, DecidableEq

/-- ResNetBlock.__init__ from the source:

  if not subsample: c_out = c_in
  self.net = Sequential(Conv2d(c_in, c_out, 3, padding=1, stride=2 if subsample else 1, bias=False),
                        BatchNorm2d(c_out), act_fn(),
                        Conv2d(c_out, c_out, 3, padding=1, bias=False), BatchNorm2d(c_out))
  self.down_sample = Conv2d(c_in, c_out, 1, stride=2, bias=False) if subsample else None
  self.act_fn = act_fn() -/
def ResNetBlock (c_in : Nat) (act_fn : String) (subsample : Bool) (c_out : Nat) : Block :=
  let c_out := if subsample then c_out else c_in
  .standard
    [ nnConv2d c_in c_out 3 1 (if subsample then 2 else 1) false,
      nnBatchNorm2d c_out,
      .act act_fn,
      nnConv2d c_out c_out 3 1 1 false,
      nnBatchNorm2d c_out ]
    (if subsample then some (nnConv2d c_in c_out 1 0 2 false) else none)
    (.act act_fn)

/-- PreActResNetBlock.__init__ from the source:

  if not subsample: c_out = c_in
  self.net = Sequential(BatchNorm2d(c_in), act_fn(),
                        Conv2d(c_in, c_out, 3, padding=1, stride=1 if not subsample else 2, bias=False),
                        BatchNorm2d(c_out), act_fn(),
                        Conv2d(c_out, c_out, 3, padding=1, bias=False))
  self.down_sample = Sequential(BatchNorm2d(c_in), act_fn(),
                                Conv2d(c_in, c_out, 1, stride=2, bias=False)) if subsample else None -/
def PreActResNetBlock (c_in : Nat) (act_fn : String) (subsample : Bool) (c_out : Nat) : Block :=
  let c_out := if subsample then c_out else c_in
  .preact
    [ nnBatchNorm2d c_in,
      .act act_fn,
      nnConv2d c_in c_out 3 1 (if subsample then 2 else 1) false,
      nnBatchNorm2d c_out,
      .act act_fn,
      nnConv2d c_out c_out 3 1 1 false ]
    (if subsample then some [nnBatchNorm2d c_in, .act act_fn, nnConv2d c_in c_out 1 0 2 false] else none)

/-- An interpretation of the tensor-runtime primitives over an abstract
tensor type `T`: the semantics of each primitive layer, plus tensor
addition.  The repository delegates these to the excluded runtime, so
claims about `forward` are stated for every interpretation. -/
structure Interp (T : Type) where
  conv : Conv2dCfg → T → T
  bn : Nat → Option Int → Option Int → T → T
  act : String → T → T
  pool : Nat → Nat → T → T
  flatten : T → T
  linear : Nat → Nat → T → T
  add : T → T → T

/-- Semantics of one layer under an interpretation. -/
def layerSem {T : Type} (I : Interp T) : Layer → T → T
  | .conv2d cfg, x => I.conv cfg x
  | .batchNorm2d c w b, x => I.bn c w b x
  | .act n, x => I.act n x
  | .adaptiveAvgPool2d h w, x => I.pool h w x
  | .flatten, x => I.flatten x
  | .linear i o, x => I.linear i o x

/-- Semantics of an `nn.Sequential`: layers applied left to right. -/
def seqSem {T : Type} (I : Interp T) : List Layer → T → T
  | [], x => x
  | l :: ls, x => seqSem I ls (layerSem I l x)

/-- Block.forward from the source.  Standard variant:

  z = self.net(x); if self.down_sample is not None: x = self.down_sample(x)
  out = z + x; out = self.act_fn(out); return out

Pre-activation variant is identical except that no activation is applied
after the sum. -/
def Block.forward {T : Type} (I : Interp T) : Block → T → T
  | .standard net ds af, x =>
      let z := seqSem I net x
      let x := match ds with
        | some d => layerSem I d x
        | none => x
      layerSem I af (I.add z x)
  | .preact net ds, x =>
      let z := seqSem I net x
      let x := match ds with
        | some d => seqSem I d x
        | none => x
      I.add z x

/-- Projection: the transform `Sequential` of a block. -/
def Block.netOf : Block → List Layer
  | .standard net _ _ => net
  | .preact net _ => net

/-- The two block classes registered in `resnet_blocks_by_name`. -/
inductive BlockClass where
  | resNetBlock
  | preActResNetBlock
deriving Repr, DecidableEq

/-- resnet_blocks_by_name from the source, as a lookup from block name to
block class: only "ResNetBlock" and "PreActResNetBlock" are mapped. -/
def resnet_blocks_by_name : String → Option BlockClass
  | "ResNetBlock" => some .resNetBlock
  | "PreActResNetBlock" => some .preActResNetBlock
  | _ => none

/-- Modelled from the spec: `act_fn_by_name`, the activation registry, is
imported from `cv_net/util/util.py`, a file of this repository that is not
among the provided sources.  Per §4.1 it resolves a symbolic activation
name to an activation constructor and fails with `UnknownActivation`
otherwise; the supported set contains at least the ReLU family and smooth
variants (GELU/LeakyReLU), here taken as tanh/relu/leakyrelu/gelu.  The
resolved constructor is identified by its name. -/
def act_fn_by_name : String → Option String
  | "tanh" => some "tanh"
  | "relu" => some "relu"
  | "leakyrelu" => some "leakyrelu"
  | "gelu" => some "gelu"
  | _ => none

/-- Python-level failures of the source, plus the spec's typed
configuration errors (so that claims about them can be stated; the
constructors a run can actually produce are determined by the proofs). -/
inductive PyErr where
  | assertionError
  | indexError
  | unknownActivation
  | unknownBlockVariant
  | mismatchedStageLengths
deriving Repr, DecidableEq

/-- Python list subscript `l[i]` for `i >= 0`: IndexError when out of range. -/
def pyGet (l : List Nat) (i : Nat) : Except PyErr Nat :=
  match l.get? i with
  | some v => .ok v
  | none => .error .indexError

/-- Python list subscript `l[-1]`: the last element, IndexError when empty. -/
def pyGetLast (l : List Nat) : Except PyErr Nat :=
  match l.getLast? with
  | some v => .ok v
  | none => .error .indexError

/-- Dispatch through the resolved block class, as
`self.hparams.block_class(c_in, self.hparams.act_fn, subsample, c_out)`. -/
def buildBlock (bc : BlockClass) (c_in : Nat) (act_fn : String) (subsample : Bool)
    (c_out : Nat) : Block :=
  match bc with
  | .resNetBlock => ResNetBlock c_in act_fn subsample c_out
  | .preActResNetBlock => PreActResNetBlock c_in act_fn subsample c_out

/-- The hyperparameter namespace assembled in ResNet.__init__ (the
SimpleNamespace), after both registry lookups succeeded. -/
structure Hparams where
  num_classes : Nat
  num_blocks : List Nat
  c_hidden : List Nat
  act_fn_name : String
  act_fn : String
  block_class : BlockClass
deriving Repr, DecidableEq

/-- The raw keyword arguments of ResNet.__init__ before validation. -/
structure RawH where
  num_classes : Nat
  num_blocks : List Nat
  c_hidden : List Nat
  act_fn_name : String
  block_name : String
deriving Repr, DecidableEq

/-- The assembled network: `self.input_net`, `self.blocks`, `self.output_net`. -/
structure Network where
  input_net : List Layer
  blocks : List Block
  output_net : List Layer
deriving Repr, DecidableEq

/-- The inner loop of _create_network for one stage index `i` with
`count = num_blocks[i]` iterations:

  for bc in range(block_count):
      subsample = (bc == 0 and block_idx > 0)
      c_in = c_hidden[block_idx - 1] if subsample else c_hidden[block_idx]
      blocks.append(block_class(c_in, act_fn, subsample, c_hidden[block_idx])) -/
def mkStage (bc : BlockClass) (act_fn : String) (c_hidden : List Nat) (i count : Nat) :
    Except PyErr (List Block) :=
  (List.range count).mapM fun j => do
    let subsample := decide (j = 0 ∧ 0 < i)
    let c_in ← if subsample then pyGet c_hidden (i - 1) else pyGet c_hidden i
    let c_out ← pyGet c_hidden i
    pure (buildBlock bc c_in act_fn subsample c_out)

/-- The outer loop of _create_network over `enumerate(num_blocks)`,
starting at stage index `i`. -/
def mkBlocks (bc : BlockClass) (act_fn : String) (c_hidden : List Nat) :
    Nat → List Nat → Except PyErr (List Block)
  | _, [] => .ok []
  | i, count :: rest => do
      let stage ← mkStage bc act_fn c_hidden i count
      let more ← mkBlocks bc act_fn c_hidden (i + 1) rest
      pure (stage ++ more)

namespace ResNet

/-- ResNet._create_network from the source: build the input adapter (conv
only for the pre-activation variant, conv + BatchNorm + activation
otherwise), the flat block sequence, and the output head
(AdaptiveAvgPool2d((1,1)), Flatten, Linear(c_hidden[-1], num_classes)). -/
def create_network (hp : Hparams) : Except PyErr Network := do
  let c0 ← pyGet hp.c_hidden 0
  let input_net :=
    if hp.block_class = .preActResNetBlock then
      [nnConv2d 3 c0 3 1 1 false]
    else
      [nnConv2d 3 c0 3 1 1 false, nnBatchNorm2d c0, .act hp.act_fn]
  let blocks ← mkBlocks hp.block_class hp.act_fn hp.c_hidden 0 hp.num_blocks
  let clast ← pyGetLast hp.c_hidden
  let output_net := [.adaptiveAvgPool2d 1 1, .flatten, .linear clast hp.num_classes]
  pure ⟨input_net, blocks, output_net⟩

/-- One step of ResNet._init_params on a single module, threading the
random-stream counter: a Conv2d weight gets
`kaiming_normal_(mode='fan_out', nonlinearity=act_fn_name)` (consuming one
sample), a BatchNorm2d gets `constant_(weight, 1)` and `constant_(bias, 0)`,
all other modules are untouched. -/
def initLayer (nl : String) (s : Nat → Int) (st : Nat) : Layer → Layer × Nat
  | .conv2d cfg => (.conv2d { cfg with winit := .kaimingNormal "fan_out" nl (s st) }, st + 1)
  | .batchNorm2d c _ _ => (.batchNorm2d c (some 1) (some 0), st)
  | l => (l, st)

/-- _init_params over a layer list, threading the sample counter. -/
def initLayers (nl : String) (s : Nat → Int) : List Layer → Nat → List Layer × Nat
  | [], st => ([], st)
  | l :: ls, st =>
      let p := initLayer nl s st l
      let q := initLayers nl s ls p.2
      (p.1 :: q.1, q.2)

/-- _init_params over one block's registered submodules, in registration
order (net, down_sample, trailing activation for the standard variant). -/
def initBlock (nl : String) (s : Nat → Int) : Block → Nat → Block × Nat
  | .standard net ds af, st =>
      let p := initLayers nl s net st
      let q : Option Layer × Nat := match ds with
        | some d =>
            let r := initLayer nl s p.2 d
            (some r.1, r.2)
        | none => (none, p.2)
      let r := initLayer nl s q.2 af
      (.standard p.1 q.1 r.1, r.2)
  | .preact net ds, st =>
      let p := initLayers nl s net st
      let q : Option (List Layer) × Nat := match ds with
        | some d =>
            let r := initLayers nl s d p.2
            (some r.1, r.2)
        | none => (none, p.2)
      (.preact p.1 q.1, q.2)

/-- _init_params over the block sequence. -/
def initBlocks (nl : String) (s : Nat → Int) : List Block → Nat → List Block × Nat
  | [], st => ([], st)
  | b :: bs, st =>
      let p := initBlock nl s b st
      let q := initBlocks nl s bs p.2
      (p.1 :: q.1, q.2)

/-- ResNet._init_params from the source: traverse every submodule of the
network in registration order (input_net, blocks, output_net) and apply
the per-module initialization. -/
def init_params (nl : String) (s : Nat → Int) (n : Network) : Network :=
  let p := initLayers nl s n.input_net 0
  let q := initBlocks nl s n.blocks p.2
  let r := initLayers nl s n.output_net q.2
  ⟨p.1, q.1, r.1⟩

/-- ResNet.__init__ from the source, the Network Builder's `build`:

  assert block_name in resnet_blocks_by_name        (AssertionError on failure)
  self.hparams = SimpleNamespace(..., act_fn=act_fn_by_name[act_fn_name],
                                 block_class=resnet_blocks_by_name[block_name])
  self._create_network()
  self._init_params()

The activation lookup happens while assembling `hparams`, before any layer
is constructed; its failure is the registry's typed error (see
`act_fn_by_name`). -/
def build (s : Nat → Int) (h : RawH) : Except PyErr Network :=
  match resnet_blocks_by_name h.block_name with
  | none => .error .assertionError
  | some bc =>
      match act_fn_by_name h.act_fn_name with
      | none => .error .unknownActivation
      | some af =>
          let hp : Hparams :=
            ⟨h.num_classes, h.num_blocks, h.c_hidden, h.act_fn_name, af, bc⟩
          (create_network hp).map (init_params hp.act_fn_name s)

end ResNet

/-- Projection: the `down_sample` submodule of a standard block (a bare
conv or `None` in the source). -/
def Block.down_sampleStd : Block → Option Layer
  | .standard _ ds _ => ds
  | .preact _ _ => none

/-- Projection: the `down_sample` submodule of a pre-activation block
(a `Sequential` or `None` in the source). -/
def Block.down_samplePre : Block → Option (List Layer)
  | .standard _ _ _ => none
  | .preact _ ds => ds

/-- One stage of the block sequence as the spec describes it: for position
`j` in `0..count-1`, `subsample = (j == 0 and i > 0)`,
`c_in = c_hidden[i-1]` if subsample else `c_hidden[i]`, and the block is
built by the resolved variant constructor with
`(c_in, activation, subsample, c_out = c_hidden[i])`. -/
def specStage (bc : BlockClass) (act_fn : String) (c_hidden : List Nat) (i count : Nat) :
    List Block :=
  (List.range count).map fun j =>
    let subsample := decide (j = 0 ∧ 0 < i)
    let c_in := if subsample then c_hidden.getD (i - 1) 0 else c_hidden.getD i 0
    buildBlock bc c_in act_fn subsample (c_hidden.getD i 0)

/-- The flat block sequence as the spec describes it: stage index `i`
iterates over `0..len(num_blocks)-1`, positions over `0..num_blocks[i]-1`,
in exactly this order. -/
def specBlockSeq (bc : BlockClass) (act_fn : String) (nb ch : List Nat) : List Block :=
  (List.range nb.length).flatMap fun i => specStage bc act_fn ch i (nb.getD i 0)

/-- Erase parameter-initialization state from a layer, keeping only its
structural configuration. -/
def eraseLayer : Layer → Layer
  | .conv2d cfg => .conv2d ⟨cfg.c_in, cfg.c_out, cfg.kernel_size, cfg.padding, cfg.stride, cfg.bias, .default⟩
  | .batchNorm2d c _ _ => .batchNorm2d c none none
  | l => l

/-- Erase parameter-initialization state from a block. -/
def Block.erase : Block → Block
  | .standard net ds af => .standard (net.map eraseLayer) (ds.map eraseLayer) (eraseLayer af)
  | .preact net ds => .preact (net.map eraseLayer) (ds.map (List.map eraseLayer))

/-- The structure of a network: its layers and their configuration, with
parameter values erased. -/
def Network.structureOf (n : Network) : Network :=
  ⟨n.input_net.map eraseLayer, n.blocks.map Block.erase, n.output_net.map eraseLayer⟩

/-- The primitive layers registered inside one block, in registration order. -/
def Block.layersOf : Block → List Layer
  | .standard net ds af => net ++ ds.toList ++ [af]
  | .preact net ds => net ++ ds.getD []

/-- Every primitive submodule of the network, in registration order: this is
the population traversed by `self.modules()` in _init_params. -/
def Network.modules (n : Network) : List Layer :=
  n.input_net ++ n.blocks.flatMap Block.layersOf ++ n.output_net

/-- The initialization contract of §4.6 on one module: a convolution weight
carries Kaiming-normal fan-out initialization whose nonlinearity is the
configured activation name; a normalization layer's scale is 1 and shift
is 0; other modules are unconstrained. -/
def layerInitOK (nl : String) : Layer → Bool
  | .conv2d cfg =>
      match cfg.winit with
      | .kaimingNormal m n _ => m == "fan_out" && n == nl
      | .default => false
  | .batchNorm2d _ w b => w == some 1 && b == some 0
  | _ => true

/-- Decidable equality on `Except`, so that concrete build outcomes can be
checked by `decide`. -/
def exceptDecEq {ε α : Type} [DecidableEq ε] [DecidableEq α] :
    (a b : Except ε α) → Decidable (a = b)
  | .ok a, .ok b =>
      match decEq a b with
      | .isTrue h => .isTrue (h ▸ rfl)
      | .isFalse h => .isFalse fun hh => h (Except.ok.inj hh)
  | .ok _, .error _ => .isFalse fun hh => Except.noConfusion hh
  | .error _, .ok _ => .isFalse fun hh => Except.noConfusion hh
  | .error e, .error f =>
      match decEq e f with
      | .isTrue h => .isTrue (h ▸ rfl)
      | .isFalse h => .isFalse fun hh => h (Except.error.inj hh)

instance {ε α : Type} [DecidableEq ε] [DecidableEq α] : DecidableEq (Except ε α) :=
  exceptDecEq

/-! Helper lemmas. -/

@[simp]
theorem exc_ok_bind {α β : Type} (a : α) (f : α → Except PyErr β) :
    (Except.ok a >>= f) = f a := rfl

@[simp]
theorem exc_error_bind {α β : Type} (e : PyErr) (f : α → Except PyErr β) :
    ((Except.error e : Except PyErr α) >>= f) = .error e := rfl

@[simp]
theorem exc_map_ok {α β : Type} (f : α → β) (a : α) :
    (Except.ok a : Except PyErr α).map f = .ok (f a) := rfl

theorem pyGet_ok {l : List Nat} {i : Nat} (h : i < l.length) :
    pyGet l i = .ok (l.getD i 0) := by
  cases hg : l.get? i with
  | none => exact absurd h (Nat.not_lt.mpr (List.get?_eq_none.mp hg))
  | some v =>
      rw [List.get?_eq_getElem?] at hg
      simp [pyGet, List.get?_eq_getElem?, hg, List.getD_eq_getD_get?]

theorem pyGetLast_isOk {l : List Nat} (h : l ≠ []) : ∃ v, pyGetLast l = .ok v := by
  cases hg : l.getLast? with
  | none => exact absurd (List.getLast?_eq_none_iff.mp hg) h
  | some v => exact ⟨v, by simp [pyGetLast, hg]⟩

theorem mapM_ok {α β : Type} (f : α → Except PyErr β) (g : α → β) :
    ∀ l : List α, (∀ x ∈ l, f x = .ok (g x)) → l.mapM f = .ok (l.map g)
  | [], _ => rfl
  | a :: l, h => by
      rw [List.mapM_cons, h a (List.mem_cons_self a l),
        mapM_ok f g l (fun x hx => h x (List.mem_cons_of_mem a hx))]
      rfl

theorem mkStage_eq (bc : BlockClass) (af : String) (ch : List Nat) (i count : Nat)
    (h : i < ch.length) :
    mkStage bc af ch i count = .ok (specStage bc af ch i count) := by
  refine mapM_ok _ _ _ ?_
  intro j hj
  have h1 : pyGet ch i = .ok (ch.getD i 0) := pyGet_ok h
  have h2 : pyGet ch (i - 1) = .ok (ch.getD (i - 1) 0) :=
    pyGet_ok (lt_of_le_of_lt (Nat.sub_le i 1) h)
  by_cases hs : j = 0 ∧ 0 < i
  · simp [hs, h1, h2]
  · simp [hs, h1, h2]

theorem mkBlocks_eq (bc : BlockClass) (af : String) (ch : List Nat) :
    ∀ (rest : List Nat) (i : Nat), i + rest.length ≤ ch.length →
      mkBlocks bc af ch i rest
        = .ok ((List.range rest.length).flatMap fun k =>
            specStage bc af ch (i + k) (rest.getD k 0))
  | [], i, _ => by simp [mkBlocks]
  | count :: rest, i, h => by
      have hlen : (count :: rest).length = rest.length + 1 := rfl
      have hi : i < ch.length := by
        rw [hlen] at h
        omega
      have hrec := mkBlocks_eq bc af ch rest (i + 1) (by rw [hlen] at h; omega)
      rw [mkBlocks, mkStage_eq bc af ch i count hi, hrec]
      simp only [exc_ok_bind]
      simp [List.range_succ_eq_map, List.flatMap_map, Function.comp,
        Nat.add_comm, Nat.add_assoc, Nat.add_left_comm]
      rfl

theorem eraseLayer_initLayer (nl : String) (s : Nat → Int) (st : Nat) (l : Layer) :
    eraseLayer (ResNet.initLayer nl s st l).1 = eraseLayer l := by
  cases l <;> rfl

theorem eraseLayers_initLayers (nl : String) (s : Nat → Int) :
    ∀ (ls : List Layer) (st : Nat),
      ((ResNet.initLayers nl s ls st).1).map eraseLayer = ls.map eraseLayer
  | [], _ => rfl
  | l :: ls, st => by
      simp [ResNet.initLayers, eraseLayer_initLayer, eraseLayers_initLayers nl s ls]

theorem erase_initBlock (nl : String) (s : Nat → Int) :
    ∀ (b : Block) (st : Nat), ((ResNet.initBlock nl s b st).1).erase = b.erase
  | .standard net ds af, st => by
      cases ds <;>
        simp [ResNet.initBlock, Block.erase, eraseLayers_initLayers, eraseLayer_initLayer]
  | .preact net ds, st => by
      cases ds <;>
        simp [ResNet.initBlock, Block.erase, eraseLayers_initLayers]

theorem erase_initBlocks (nl : String) (s : Nat → Int) :
    ∀ (bs : List Block) (st : Nat),
      ((ResNet.initBlocks nl s bs st).1).map Block.erase = bs.map Block.erase
  | [], _ => rfl
  | b :: bs, st => by
      simp [ResNet.initBlocks, erase_initBlock, erase_initBlocks nl s bs]

theorem structureOf_init_params (nl : String) (s : Nat → Int) (n : Network) :
    (ResNet.init_params nl s n).structureOf = n.structureOf := by
  simp [ResNet.init_params, Network.structureOf, eraseLayers_initLayers, erase_initBlocks]

theorem initLayer_ok (nl : String) (s : Nat → Int) (st : Nat) (l : Layer) :
    layerInitOK nl (ResNet.initLayer nl s st l).1 = true := by
  cases l <;> simp [ResNet.initLayer, layerInitOK]

theorem initLayers_ok (nl : String) (s : Nat → Int) :
    ∀ (ls : List Layer) (st : Nat) (l : Layer),
      l ∈ (ResNet.initLayers nl s ls st).1 → layerInitOK nl l = true
  | [], _, l, h => absurd h (List.not_mem_nil l)
  | x :: ls, st, l, h => by
      simp only [ResNet.initLayers, List.mem_cons] at h
      cases h with
      | inl h => rw [h]; exact initLayer_ok nl s st x
      | inr h => exact initLayers_ok nl s ls _ l h

theorem initBlock_ok (nl : String) (s : Nat → Int) :
    ∀ (b : Block) (st : Nat) (l : Layer),
      l ∈ ((ResNet.initBlock nl s b st).1).layersOf → layerInitOK nl l = true
  | .standard net ds af, st, l, h => by
      cases ds with
      | none =>
          simp only [ResNet.initBlock, Block.layersOf, Option.toList, List.append_nil,
            List.mem_append, List.mem_singleton] at h
          rcases h with h | h
          · exact initLayers_ok nl s net st l h
          · rw [h]; exact initLayer_ok nl s _ af
      | some d =>
          simp only [ResNet.initBlock, Block.layersOf, Option.toList, List.mem_append,
            List.mem_singleton] at h
          rcases h with (h | h) | h
          · exact initLayers_ok nl s net st l h
          · rw [h]; exact initLayer_ok nl s _ d
          · rw [h]; exact initLayer_ok nl s _ af
  | .preact net ds, st, l, h => by
      cases ds with
      | none =>
          simp only [ResNet.initBlock, Block.layersOf, Option.getD, List.append_nil] at h
          exact initLayers_ok nl s net st l h
      | some d =>
          simp only [ResNet.initBlock, Block.layersOf, Option.getD, List.mem_append] at h
          rcases h with h | h
          · exact initLayers_ok nl s net st l h
          · exact initLayers_ok nl s d _ l h

theorem initBlocks_ok (nl : String) (s : Nat → Int) :
    ∀ (bs : List Block) (st : Nat) (b : Block),
      b ∈ (ResNet.initBlocks nl s bs st).1 → ∀ l ∈ b.layersOf, layerInitOK nl l = true
  | [], _, b, h => absurd h (List.not_mem_nil b)
  | x :: bs, st, b, h => by
      simp only [ResNet.initBlocks, List.mem_cons] at h
      cases h with
      | inl h => intro l hl; rw [h] at hl; exact initBlock_ok nl s x st l hl
      | inr h => exact initBlocks_ok nl s bs _ b h

theorem init_params_ok (nl : String) (s : Nat → Int) (n : Network) :
    ∀ l ∈ (ResNet.init_params nl s n).modules, layerInitOK nl l = true := by
  intro l h
  simp only [ResNet.init_params, Network.modules, List.mem_append, List.mem_flatMap] at h
  rcases h with (h | ⟨b, hb, hl⟩) | h
  · exact initLayers_ok nl s n.input_net 0 l h
  · exact initBlocks_ok nl s n.blocks _ b hb l hl
  · exact initLayers_ok nl s n.output_net _ l h

theorem erase_buildBlock (bc : BlockClass) (c_in : Nat) (a : String) (ss : Bool)
    (c_out : Nat) :
    (buildBlock bc c_in a ss c_out).erase = buildBlock bc c_in a ss c_out := by
  cases bc <;> cases ss <;>
    simp [buildBlock, ResNetBlock, PreActResNetBlock, Block.erase, eraseLayer,
      nnConv2d, nnBatchNorm2d]

theorem erase_specBlockSeq (bc : BlockClass) (af : String) (nb ch : List Nat) :
    (specBlockSeq bc af nb ch).map Block.erase = specBlockSeq bc af nb ch := by
  simp [specBlockSeq, specStage, List.map_flatMap, List.map_map, Function.comp_def,
    erase_buildBlock]

theorem mkBlocks_zero_eq (bc : BlockClass) (af : String) (nb ch : List Nat)
    (h : nb.length ≤ ch.length) :
    mkBlocks bc af ch 0 nb = .ok (specBlockSeq bc af nb ch) := by
  rw [mkBlocks_eq bc af ch nb 0 (by simpa using h)]
  simp [specBlockSeq]

theorem build_isOk {s : Nat → Int} {nc : Nat} {nb ch : List Nat} {an bn : String}
    (bc : BlockClass) (af : String)
    (h1 : resnet_blocks_by_name bn = some bc) (h2 : act_fn_by_name an = some af)
    (h3 : ch ≠ []) (h4 : nb.length ≤ ch.length) :
    (ResNet.build s ⟨nc, nb, ch, an, bn⟩).isOk = true := by
  obtain ⟨v, hv⟩ := pyGetLast_isOk h3
  have h0 : 0 < ch.length := List.length_pos.mpr h3
  have hblocks := mkBlocks_eq bc af ch nb 0 (by simpa using h4)
  simp [ResNet.build, h1, h2, ResNet.create_network, pyGet_ok h0, hblocks, hv,
    Except.isOk, Except.toBool]

theorem build_eq {s : Nat → Int} {nc : Nat} {nb ch : List Nat} {an bn : String}
    (bc : BlockClass) (af : String)
    (h1 : resnet_blocks_by_name bn = some bc) (h2 : act_fn_by_name an = some af)
    (h3 : ch ≠ []) (h4 : nb.length ≤ ch.length) :
    ∃ v, ResNet.build s ⟨nc, nb, ch, an, bn⟩
      = .ok (ResNet.init_params an s
          ⟨(if bc = .preActResNetBlock
             then [nnConv2d 3 (ch.getD 0 0) 3 1 1 false]
             else [nnConv2d 3 (ch.getD 0 0) 3 1 1 false, nnBatchNorm2d (ch.getD 0 0),
               .act af]),
           specBlockSeq bc af nb ch,
           [.adaptiveAvgPool2d 1 1, .flatten, .linear v nc]⟩) := by
  obtain ⟨v, hv⟩ := pyGetLast_isOk h3
  have h0 : 0 < ch.length := List.length_pos.mpr h3
  refine ⟨v, ?_⟩
  simp [ResNet.build, h1, h2, ResNet.create_network, pyGet_ok h0,
    mkBlocks_zero_eq bc af nb ch h4, hv]

theorem map_structureOf_init (s : Nat → Int) (an : String) (e : Except PyErr Network) :
    (e.map (ResNet.init_params an s)).map Network.structureOf = e.map Network.structureOf := by
  cases e <;> simp [Except.map, structureOf_init_params]

/-! Claim theorems. -/

/-- Claim C1, counterexample: with `num_blocks = [3,3]` and
`c_hidden = [12,32,64]` (mismatched lengths), `build` does not fail with
`MismatchedStageLengths` — it succeeds and returns a network.  No length
validation exists in the code. -/
theorem no_mismatched_stage_lengths_error :
    ResNet.build (fun _ => 0) ⟨10, [3, 3], [12, 32, 64], "relu", "ResNetBlock"⟩
        ≠ .error .mismatchedStageLengths
      ∧ (ResNet.build (fun _ => 0) ⟨10, [3, 3], [12, 32, 64], "relu", "ResNetBlock"⟩).isOk
          = true :=
  ⟨by decide, by decide⟩

/-- Claim C1, amended: `build` performs no validation of
`len(num_blocks) == len(c_hidden)`.  Whenever `num_blocks` is no longer
than a nonempty `c_hidden` and both registry names are known, a call with
mismatched lengths succeeds and returns a network (the surplus `c_hidden`
entries are silently unused by the stage loop). -/
theorem build_ignores_length_mismatch :
    ∀ (s : Nat → Int) (nc : Nat) (nb ch : List Nat) (an bn : String)
      (bc : BlockClass) (af : String),
      resnet_blocks_by_name bn = some bc →
      act_fn_by_name an = some af →
      ch ≠ [] → nb.length ≤ ch.length → nb.length ≠ ch.length →
      (ResNet.build s ⟨nc, nb, ch, an, bn⟩).isOk = true := by
  intro s nc nb ch an bn bc af h1 h2 h3 h4 _
  exact build_isOk bc af h1 h2 h3 h4

/-- Witness for `build_ignores_length_mismatch` at
`num_blocks = [3,3]`, `c_hidden = [12,32,64]`. -/
theorem build_ignores_length_mismatch_witness :
    (ResNet.build (fun _ => 1) ⟨10, [3, 3], [12, 32, 64], "relu", "ResNetBlock"⟩).isOk
      = true :=
  build_ignores_length_mismatch (fun _ => 1) 10 [3, 3] [12, 32, 64] "relu" "ResNetBlock"
    .resNetBlock "relu" rfl rfl (by decide) (by decide) (by decide)

/-- Claim C2: for every valid hyperparameters (equal-length stage lists,
known registry names), the flat block sequence constructed by the builder
is exactly the enumeration described by the spec: stage index `i` over
`0..len(num_blocks)-1`, position `j` over `0..num_blocks[i]-1`,
`subsample = (j == 0 and i > 0)`, `c_in = c_hidden[i-1]` when subsampling
else `c_hidden[i]`, each block built by the resolved variant constructor
with `(c_in, activation, subsample, c_out = c_hidden[i])`, in this order
(`specBlockSeq`); in particular stage 0's first block has
`subsample = false`. -/
theorem blocks_follow_spec_enumeration :
    ∀ (s : Nat → Int) (nc : Nat) (nb ch : List Nat) (an bn : String)
      (bc : BlockClass) (af : String),
      resnet_blocks_by_name bn = some bc →
      act_fn_by_name an = some af →
      ch ≠ [] → nb.length = ch.length →
      (ResNet.build s ⟨nc, nb, ch, an, bn⟩).map (fun n => n.structureOf.blocks)
        = .ok (specBlockSeq bc af nb ch) := by
  intro s nc nb ch an bn bc af h1 h2 h3 h4
  obtain ⟨v, hv⟩ := build_eq bc af h1 h2 h3 (le_of_eq h4)
  rw [hv]
  simp only [exc_map_ok, structureOf_init_params]
  simp [Network.structureOf, erase_specBlockSeq]

/-- Witness for `blocks_follow_spec_enumeration` at the reference
hyperparameters. -/
theorem blocks_follow_spec_enumeration_witness :
    (ResNet.build (fun _ => 0) ⟨10, [3, 3, 3], [12, 32, 64], "relu", "ResNetBlock"⟩).map
        (fun n => n.structureOf.blocks)
      = .ok (specBlockSeq .resNetBlock "relu" [3, 3, 3] [12, 32, 64]) :=
  blocks_follow_spec_enumeration (fun _ => 0) 10 [3, 3, 3] [12, 32, 64] "relu"
    "ResNetBlock" .resNetBlock "relu" rfl rfl (by decide) rfl

/-- Claim C3: the Standard residual block's forward computes
`out = Activation(transform(x) + shortcut(x))`, the activation applied
after the merge; the shortcut is the identity when `subsample` is false,
and a single 1x1 convolution (`c_in` to `c_out`, stride 2, no bias) with
no activation or normalization when `subsample` is true. -/
theorem standard_block_forward_spec :
    ∀ (T : Type) (I : Interp T) (c_in : Nat) (a : String) (ss : Bool) (c_out : Nat) (x : T),
      (ResNetBlock c_in a ss c_out).forward I x
        = I.act a (I.add (seqSem I (ResNetBlock c_in a ss c_out).netOf x)
            (if ss then I.conv ⟨c_in, c_out, 1, 0, 2, false, .default⟩ x else x))
      ∧ (ResNetBlock c_in a ss c_out).down_sampleStd
        = (if ss then some (nnConv2d c_in c_out 1 0 2 false) else none) := by
  intro T I c_in a ss c_out x
  cases ss <;>
    simp [ResNetBlock, Block.forward, Block.netOf, Block.down_sampleStd, layerSem, nnConv2d]

/-- Claim C4: the Pre-Activation residual block's forward computes
`out = transform(x) + shortcut(x)` with no activation after the merge; the
shortcut is the identity when `subsample` is false, and
`Normalize(c_in) -> Activation -> 1x1 Conv(c_in to c_out, stride 2,
no bias)` when `subsample` is true. -/
theorem preact_block_forward_spec :
    ∀ (T : Type) (I : Interp T) (c_in : Nat) (a : String) (ss : Bool) (c_out : Nat) (x : T),
      (PreActResNetBlock c_in a ss c_out).forward I x
        = I.add (seqSem I (PreActResNetBlock c_in a ss c_out).netOf x)
            (if ss then I.conv ⟨c_in, c_out, 1, 0, 2, false, .default⟩
              (I.act a (I.bn c_in none none x)) else x)
      ∧ (PreActResNetBlock c_in a ss c_out).down_samplePre
        = (if ss
           then some [nnBatchNorm2d c_in, .act a, nnConv2d c_in c_out 1 0 2 false]
           else none) := by
  intro T I c_in a ss c_out x
  cases ss <;>
    simp [PreActResNetBlock, Block.forward, Block.netOf, Block.down_samplePre, layerSem,
      seqSem, nnConv2d, nnBatchNorm2d]

/-- Claim C5, counterexample: `build` with `block_name = "nonexistent"`
fails with a plain `AssertionError` from the bare
`assert block_name in resnet_blocks_by_name`, not with a typed
`UnknownBlockVariant` error. -/
theorem unknown_block_variant_not_raised :
    ResNet.build (fun _ => 0) ⟨10, [3, 3, 3], [12, 32, 64], "relu", "nonexistent"⟩
        = .error .assertionError
      ∧ PyErr.assertionError ≠ PyErr.unknownBlockVariant :=
  ⟨by decide, by decide⟩

/-- Claim C5, amended: for every call to `build` with a block-variant
symbol outside the supported set, `build` fails eagerly with an
`AssertionError` (a bare `assert`, not a typed `UnknownBlockVariant`
error), as the first step before anything is constructed, so no partial
network is produced. -/
theorem unknown_block_name_asserts :
    ∀ (s : Nat → Int) (h : RawH),
      resnet_blocks_by_name h.block_name = none →
      ResNet.build s h = .error .assertionError := by
  intro s h hb
  simp [ResNet.build, hb]

/-- Witness for `unknown_block_name_asserts` at `block_name = "nonexistent"`. -/
theorem unknown_block_name_asserts_witness :
    ResNet.build (fun _ => 1) ⟨10, [3, 3, 3], [12, 32, 64], "relu", "nonexistent"⟩
      = .error .assertionError :=
  unknown_block_name_asserts (fun _ => 1)
    ⟨10, [3, 3, 3], [12, 32, 64], "relu", "nonexistent"⟩ rfl

/-- Claim C6: for every valid hyperparameters, the input adapter is a
single 3x3 convolution (no bias) mapping 3 input channels to
`c_hidden[0]`; when the resolved block variant is Pre-Activation the
adapter contains only that convolution, otherwise a Normalize and an
Activation are appended after it. -/
theorem input_net_structure :
    ∀ (s : Nat → Int) (nc : Nat) (nb ch : List Nat) (an bn : String)
      (bc : BlockClass) (af : String),
      resnet_blocks_by_name bn = some bc →
      act_fn_by_name an = some af →
      ch ≠ [] → nb.length = ch.length →
      (ResNet.build s ⟨nc, nb, ch, an, bn⟩).map (fun n => n.structureOf.input_net)
        = .ok (if bc = .preActResNetBlock
            then [nnConv2d 3 (ch.getD 0 0) 3 1 1 false]
            else [nnConv2d 3 (ch.getD 0 0) 3 1 1 false, nnBatchNorm2d (ch.getD 0 0),
              .act af]) := by
  intro s nc nb ch an bn bc af h1 h2 h3 h4
  obtain ⟨v, hv⟩ := build_eq bc af h1 h2 h3 (le_of_eq h4)
  rw [hv]
  simp only [exc_map_ok, structureOf_init_params]
  cases bc <;> simp [Network.structureOf, eraseLayer, nnConv2d, nnBatchNorm2d]

/-- Witness for `input_net_structure` with the Pre-Activation variant. -/
theorem input_net_structure_witness :
    (ResNet.build (fun _ => 0)
        ⟨10, [3, 3, 3], [12, 32, 64], "relu", "PreActResNetBlock"⟩).map
        (fun n => n.structureOf.input_net)
      = .ok (if BlockClass.preActResNetBlock = BlockClass.preActResNetBlock
          then [nnConv2d 3 ([12, 32, 64].getD 0 0) 3 1 1 false]
          else [nnConv2d 3 ([12, 32, 64].getD 0 0) 3 1 1 false,
            nnBatchNorm2d ([12, 32, 64].getD 0 0), .act "relu"]) :=
  input_net_structure (fun _ => 0) 10 [3, 3, 3] [12, 32, 64] "relu" "PreActResNetBlock"
    .preActResNetBlock "relu" rfl rfl (by decide) rfl

/-- Claim C7: after `build` returns, every convolution weight in the
network carries Kaiming-normal initialization in fan-out mode with
nonlinearity equal to the configured activation name, and every
normalization layer's scale parameter is 1 and shift parameter is 0, over
every sub-module of the built network. -/
theorem resnet_init_kaiming :
    ∀ (s : Nat → Int) (nc : Nat) (nb ch : List Nat) (an bn : String) (net : Network),
      ResNet.build s ⟨nc, nb, ch, an, bn⟩ = .ok net →
      ∀ l ∈ net.modules, layerInitOK an l = true := by
  intro s nc nb ch an bn net hnet
  cases hb : resnet_blocks_by_name bn with
  | none =>
      simp only [ResNet.build, hb] at hnet
      exact Except.noConfusion hnet
  | some bc =>
      cases ha : act_fn_by_name an with
      | none =>
          simp only [ResNet.build, hb, ha] at hnet
          exact Except.noConfusion hnet
      | some af =>
          simp only [ResNet.build, hb, ha] at hnet
          cases hc : ResNet.create_network ⟨nc, nb, ch, an, af, bc⟩ with
          | error e =>
              rw [hc] at hnet
              exact Except.noConfusion hnet
          | ok cn =>
              rw [hc] at hnet
              simp only [Except.map, Except.ok.injEq] at hnet
              rw [← hnet]
              exact init_params_ok an s cn

/-- Witness for `resnet_init_kaiming` at the reference hyperparameters. -/
theorem resnet_init_kaiming_witness :
    ∃ net,
      ResNet.build (fun _ => 0) ⟨10, [3, 3, 3], [12, 32, 64], "relu", "ResNetBlock"⟩
          = .ok net
        ∧ ∀ l ∈ net.modules, layerInitOK "relu" l = true := by
  cases hb : ResNet.build (fun _ => 0) ⟨10, [3, 3, 3], [12, 32, 64], "relu", "ResNetBlock"⟩ with
  | error e =>
      have hok : (ResNet.build (fun _ => 0)
          ⟨10, [3, 3, 3], [12, 32, 64], "relu", "ResNetBlock"⟩).isOk = true := by decide
      rw [hb] at hok
      simp [Except.isOk, Except.toBool] at hok
  | ok net =>
      exact ⟨net, rfl, resnet_init_kaiming (fun _ => 0) 10 [3, 3, 3] [12, 32, 64] "relu"
        "ResNetBlock" net hb⟩

/-- Claim C8: for every call to `build` whose block name resolves but
whose activation name is outside the supported set, activation resolution
fails with the typed `UnknownActivation` error (the activation registry is
modelled from the spec, see `act_fn_by_name`). -/
theorem unknown_activation_error :
    ∀ (s : Nat → Int) (h : RawH) (bc : BlockClass),
      resnet_blocks_by_name h.block_name = some bc →
      act_fn_by_name h.act_fn_name = none →
      ResNet.build s h = .error .unknownActivation := by
  intro s h bc hb ha
  simp [ResNet.build, hb, ha]

/-- Witness for `unknown_activation_error` at `activation_name = "swishx"`. -/
theorem unknown_activation_error_witness :
    ResNet.build (fun _ => 0) ⟨10, [3, 3, 3], [12, 32, 64], "swishx", "ResNetBlock"⟩
      = .error .unknownActivation :=
  unknown_activation_error (fun _ => 0)
    ⟨10, [3, 3, 3], [12, 32, 64], "swishx", "ResNetBlock"⟩ .resNetBlock rfl rfl

/-- Claim C9: `build` is deterministic in everything except the sampled
parameter values: for the same hyperparameters, any two invocations (here,
any two random streams) produce the same outcome and networks of
identical structure — the same sequence of layers with the same
configuration.  The embedding is a pure function, so `build` has no side
effects beyond returning the (initialized) network. -/
theorem build_structure_deterministic :
    ∀ (h : RawH) (s1 s2 : Nat → Int),
      (ResNet.build s1 h).map Network.structureOf
        = (ResNet.build s2 h).map Network.structureOf := by
  intro h s1 s2
  cases hb : resnet_blocks_by_name h.block_name with
  | none => simp [ResNet.build, hb]
  | some bc =>
      cases ha : act_fn_by_name h.act_fn_name with
      | none => simp [ResNet.build, hb, ha]
      | some af => simp [ResNet.build, hb, ha, map_structureOf_init]

/-- Claim C10: a stage with `num_blocks[i] == 0` is accepted: with
equal-length stage lists and known registry names, `build` succeeds, and
the inner loop of stage `i` contributes no block at all (its
subsampling/width transition is silently skipped). -/
theorem zero_block_stage_builds :
    ∀ (s : Nat → Int) (nc : Nat) (nb ch : List Nat) (an bn : String)
      (bc : BlockClass) (af : String) (i : Nat),
      resnet_blocks_by_name bn = some bc →
      act_fn_by_name an = some af →
      nb.length = ch.length →
      nb.get? i = some 0 →
      (ResNet.build s ⟨nc, nb, ch, an, bn⟩).isOk = true
        ∧ mkStage bc af ch i 0 = .ok [] := by
  intro s nc nb ch an bn bc af i h1 h2 hlen hi
  have hlt : i < nb.length := by
    cases hg : nb.get? i with
    | none => rw [hg] at hi; exact absurd hi (by simp)
    | some v => exact (List.get?_eq_some.mp hg).1
  have hne : ch ≠ [] := by
    intro hch
    rw [hch] at hlen
    simp at hlen
    subst hlen
    simp at hlt
  exact ⟨build_isOk bc af h1 h2 hne (le_of_eq hlen), rfl⟩

/-- Witness for `zero_block_stage_builds` at `num_blocks = [3,0,3]`. -/
theorem zero_block_stage_builds_witness :
    (ResNet.build (fun _ => 0)
        ⟨10, [3, 0, 3], [12, 32, 64], "relu", "PreActResNetBlock"⟩).isOk = true
      ∧ mkStage .preActResNetBlock "relu" [12, 32, 64] 1 0 = .ok [] :=
  zero_block_stage_builds (fun _ => 0) 10 [3, 0, 3] [12, 32, 64] "relu"
    "PreActResNetBlock" .preActResNetBlock "relu" 1 rfl rfl rfl rfl

end CvNet
